import Mathlib

set_option maxHeartbeats 1000000

/-!
Shallow embedding of the supply-curve builder of the `gst-fundamentals`
repository: the offer-curve expansion, renewable truncation, merit-order
sort, cumulative-capacity assignment and resource-type summary of the
GridStatus endpoint, and the clearing-price / average-cost statistics of
`src/lib/database.ts`.  Floating-point numbers of the source are modelled
as rationals; JavaScript `undefined`/missing fields as `Option`.
-/

/-- One raw generator row as consumed by the GridStatus endpoint
(`rawData.data` elements).  Offer-curve points are arrays of numbers,
kept as `List ℚ` because the source checks `point.length === 2`. -/
structure RawRow where
  telemetered_resource_status : Option String
  resource_name : Option String
  resource_type : Option String
  sced_tpo_offer_curve : List (List ℚ)
  output_schedule : Option ℚ
deriving DecidableEq, Repr

/-- One expanded offer-curve point (`interface OfferCurvePoint`). -/
structure OfferCurvePoint where
  mw : ℚ
  price : ℚ
  resource_name : String
  resource_type : String
deriving DecidableEq, Repr

/-- JavaScript `s || d` on strings: the empty string is falsy. -/
def jsStrOr (s d : String) : String :=
  if s = "" then d else s

/-- JavaScript `x || d` where `x` may be `undefined`/`null` or a string. -/
def jsOptStrOr (o : Option String) (d : String) : String :=
  match o with
  | none => d
  | some s => jsStrOr s d

/-- `const excludedStatuses = ['OUT', 'OFF', 'OFFNS']`. -/
def excludedStatuses : List String := ["OUT", "OFF", "OFFNS"]

/-- `excludedStatuses.includes(row.telemetered_resource_status)`. -/
def isExcludedStatus (row : RawRow) : Bool :=
  match row.telemetered_resource_status with
  | some s => excludedStatuses.contains s
  | none => false

/-- `row.resource_type === 'WIND' || row.resource_type === 'PVGR'`. -/
def isRenewableToTruncate (row : RawRow) : Bool :=
  row.resource_type == some "WIND" || row.resource_type == some "PVGR"

/-- The inner `for (const point of curve)` loop of the GridStatus endpoint:
walks the offer-curve points tracking `prevMw` and `cumulativeScheduled`,
emitting one segment per positive-width step, truncating renewables at
`outputSchedule` (with early `break`), and skipping points whose array
length is not 2 (leaving `prevMw` unchanged, as in the source). -/
def processPoints (isRen : Bool) (outputSchedule : ℚ) (name ty : String) :
    List (List ℚ) → ℚ → ℚ → List OfferCurvePoint
  | [], _, _ => []
  | (currentMw :: price :: []) :: rest, prevMw, cumulativeScheduled =>
    let segmentMw := currentMw - prevMw
    if 0 < segmentMw then
      if isRen then
        if cumulativeScheduled < outputSchedule then
          let remainingToSchedule := outputSchedule - cumulativeScheduled
          let actualSegmentMw := min segmentMw remainingToSchedule
          if outputSchedule ≤ cumulativeScheduled + actualSegmentMw then
            [⟨actualSegmentMw, price, name, ty⟩]
          else
            ⟨actualSegmentMw, price, name, ty⟩ ::
              processPoints isRen outputSchedule name ty rest currentMw
                (cumulativeScheduled + actualSegmentMw)
        else
          processPoints isRen outputSchedule name ty rest currentMw cumulativeScheduled
      else
        ⟨segmentMw, price, name, ty⟩ ::
          processPoints isRen outputSchedule name ty rest currentMw cumulativeScheduled
    else
      processPoints isRen outputSchedule name ty rest currentMw cumulativeScheduled
  | _ :: rest, prevMw, cumulativeScheduled =>
    processPoints isRen outputSchedule name ty rest prevMw cumulativeScheduled

/-- The segments a single row contributes to `expandedData`: nothing when
the row is skipped (excluded status, missing schedule, renewable with
non-positive schedule), otherwise its processed offer curve. -/
def recordSegments (row : RawRow) : List OfferCurvePoint :=
  if isExcludedStatus row then []
  else
    match row.output_schedule with
    | none => []
    | some outputSchedule =>
      if isRenewableToTruncate row && decide (outputSchedule ≤ 0) then []
      else
        processPoints (isRenewableToTruncate row) outputSchedule
          (jsOptStrOr row.resource_name "UNKNOWN_GENERATOR")
          (jsOptStrOr row.resource_type "UNKNOWN_TYPE")
          row.sced_tpo_offer_curve 0 0

/-- The mutable state threaded through the endpoint's `forEach` loop:
the accumulated `expandedData` and the skip/active counters. -/
structure BuildState where
  expandedData : List OfferCurvePoint
  skippedForStatus : ℕ
  skippedForZeroSchedule : ℕ
  skippedForMissingSchedule : ℕ
  activeUnitsCount : ℕ
deriving DecidableEq, Repr

/-- Initial counter state. -/
def initState : BuildState := ⟨[], 0, 0, 0, 0⟩

/-- One iteration of `rawData.data.forEach(row => ...)`: status filter,
missing-schedule filter, renewable zero-schedule filter, then curve
expansion. -/
def stepRow (st : BuildState) (row : RawRow) : BuildState :=
  if isExcludedStatus row then
    { st with skippedForStatus := st.skippedForStatus + 1 }
  else
    match row.output_schedule with
    | none =>
      { st with skippedForMissingSchedule := st.skippedForMissingSchedule + 1 }
    | some outputSchedule =>
      if isRenewableToTruncate row && decide (outputSchedule ≤ 0) then
        { st with skippedForZeroSchedule := st.skippedForZeroSchedule + 1 }
      else
        { st with
            activeUnitsCount := st.activeUnitsCount + 1
            expandedData := st.expandedData ++
              processPoints (isRenewableToTruncate row) outputSchedule
                (jsOptStrOr row.resource_name "UNKNOWN_GENERATOR")
                (jsOptStrOr row.resource_type "UNKNOWN_TYPE")
                row.sced_tpo_offer_curve 0 0 }

/-- The whole `forEach` loop over the raw rows. -/
def buildState (rows : List RawRow) : BuildState :=
  rows.foldl stepRow initState

/-- `expandedData` after the loop. -/
def expandedData (rows : List RawRow) : List OfferCurvePoint :=
  (buildState rows).expandedData

/-- `expandedData.filter(point => point.mw > 0)`. -/
def supplyData (rows : List RawRow) : List OfferCurvePoint :=
  (expandedData rows).filter (fun p => decide (0 < p.mw))

/-- The comparator `(a, b) => a.price - b.price || a.mw - b.mw` as the
non-strict order a stable ascending sort realises. -/
def meritLe (a b : OfferCurvePoint) : Bool :=
  decide (a.price < b.price ∨ (a.price = b.price ∧ a.mw ≤ b.mw))

/-- `supplyData.sort((a, b) => a.price - b.price || a.mw - b.mw)`,
modelled by a stable merge sort with the corresponding total preorder. -/
def sortedSupplyCurve (rows : List RawRow) : List OfferCurvePoint :=
  (supplyData rows).mergeSort meritLe

/-- A supply-curve point after cumulative-capacity assignment (the spread
`...point` plus `cumulativeCapacity` and `cumulativeCapacityEnd`). -/
structure ProcessedPoint where
  mw : ℚ
  price : ℚ
  resource_name : String
  resource_type : String
  cumulativeCapacity : ℚ
  cumulativeCapacityEnd : ℚ
deriving DecidableEq, Repr

/-- The `limitedSupplyData.map(point => ...)` pass with its mutable
`cumulativeCapacity` accumulator; returns the mapped list together with
the final accumulator value (which the endpoint reports as
`totalCapacity`). -/
def assignCumulative : List OfferCurvePoint → ℚ → List ProcessedPoint × ℚ
  | [], c => ([], c)
  | p :: rest, c =>
    let r := assignCumulative rest (c + p.mw)
    (⟨p.mw, p.price, p.resource_name, p.resource_type, c, c + p.mw⟩ :: r.1, r.2)

/-- `processedData` of the endpoint (`rawSupplyCurve` of the response). -/
def processedData (rows : List RawRow) : List ProcessedPoint :=
  (assignCumulative (sortedSupplyCurve rows) 0).1

/-- `totalCapacity` of the response: the value of the mutable
`cumulativeCapacity` accumulator after the map. -/
def totalCapacity (rows : List RawRow) : ℚ :=
  (assignCumulative (sortedSupplyCurve rows) 0).2

/-- One entry of `resourceTypeMap`. -/
structure TypeSummary where
  capacity : ℚ
  marginalCost : ℚ
  color : String
deriving DecidableEq, Repr

/-- The endpoint's fixed `colorMap`. -/
def colorMap : List (String × String) :=
  [("WIND", "#10B981"), ("SOLAR", "#F59E0B"), ("NUCLEAR", "#8B5CF6"),
   ("GAS_CC", "#3B82F6"), ("COAL", "#6B7280"), ("GAS_ST", "#EF4444"),
   ("OIL_ST", "#F97316"), ("GAS_CT", "#EC4899"), ("OIL_CT", "#84CC16"),
   ("HYDRO", "#06B6D4"), ("OTHER", "#9CA3AF")]

/-- `colorMap[type] || '#9CA3AF'` (every colour string is truthy). -/
def summaryColor (t : String) : String :=
  (colorMap.lookup t).getD "#9CA3AF"

/-- `resourceTypeMap[type].capacity += point.mw` on an association list:
adds `x` to the capacity of the first entry with key `t`. -/
def addCapacity : List (String × TypeSummary) → String → ℚ → List (String × TypeSummary)
  | [], _, _ => []
  | (k, v) :: rest, t, x =>
    if k = t then (k, { v with capacity := v.capacity + x }) :: rest
    else (k, v) :: addCapacity rest t x

/-- One iteration of the `processedData.forEach(point => ...)` summary
fold: create the entry (capacity 0, first price, colour) when the key is
absent, then add the point's `mw` to the entry's capacity. -/
def updateSummary (m : List (String × TypeSummary)) (p : ProcessedPoint) :
    List (String × TypeSummary) :=
  addCapacity
    (if (m.lookup (jsStrOr p.resource_type "OTHER")).isSome then m
     else m ++ [(jsStrOr p.resource_type "OTHER",
       ⟨0, p.price, summaryColor (jsStrOr p.resource_type "OTHER")⟩)])
    (jsStrOr p.resource_type "OTHER") p.mw

/-- `resourceTypeMap` built from `processedData` (insertion-ordered). -/
def resourceTypeSummary (rows : List RawRow) : List (String × TypeSummary) :=
  (processedData rows).foldl updateSummary []

/-- The `metadata` object of the endpoint's JSON response. -/
structure Metadata where
  startTime : String
  endTime : String
  originalDataPoints : ℕ
  processedDataPoints : ℕ
  totalExpandedPoints : ℕ
  limitedForPerformance : Bool
deriving DecidableEq, Repr

/-- The metadata value the endpoint returns for a given request window
and raw row list. -/
def responseMetadata (startTime endTime : String) (rows : List RawRow) : Metadata :=
  ⟨startTime, endTime, rows.length, (processedData rows).length,
   (expandedData rows).length, false⟩

/-- Comparator `(a, b) => a.price - b.price` of `database.ts` `stats`. -/
def priceLe (a b : OfferCurvePoint) : Bool :=
  decide (a.price ≤ b.price)

/-- The clearing-price state of `database.ts` `stats` after its merit-order
walk: `clearingPrice` / `marginalResourceType` keep their initial defaults
`50` / `'TBD'` when the loop never breaks. -/
structure StatsResult where
  clearingPrice : ℚ
  marginalResourceType : String
  dispatchedCapacity : ℚ
  weightedCostSum : ℚ
deriving DecidableEq, Repr

/-- The `for (const point of sortedData)` loop of `stats`: accumulates
`cumulativeCapacity`, `dispatchedCapacity` and `weightedCostSum`, breaking
at the first point with `cumulativeCapacity + point.mw >= actualDemand`. -/
def statsLoop (actualDemand : ℚ) :
    List OfferCurvePoint → ℚ → ℚ → ℚ → StatsResult
  | [], _, dispatchedCapacity, weightedCostSum =>
    ⟨50, "TBD", dispatchedCapacity, weightedCostSum⟩
  | point :: rest, cumulativeCapacity, dispatchedCapacity, weightedCostSum =>
    if actualDemand ≤ cumulativeCapacity + point.mw then
      ⟨point.price, jsStrOr point.resource_type "Unknown",
       dispatchedCapacity + (actualDemand - cumulativeCapacity),
       weightedCostSum + point.price * (actualDemand - cumulativeCapacity)⟩
    else
      statsLoop actualDemand rest (cumulativeCapacity + point.mw)
        (dispatchedCapacity + point.mw)
        (weightedCostSum + point.price * point.mw)

/-- `stats`: sort a copy of the source data by price, then walk it. -/
def marketStats (sourceData : List OfferCurvePoint) (actualDemand : ℚ) : StatsResult :=
  statsLoop actualDemand (sourceData.mergeSort priceLe) 0 0 0

/-- `avgGenCost = dispatchedCapacity > 0 ? weightedCostSum / dispatchedCapacity : 0`. -/
def avgGenCost (sourceData : List OfferCurvePoint) (actualDemand : ℚ) : ℚ :=
  let r := marketStats sourceData actualDemand
  if 0 < r.dispatchedCapacity then r.weightedCostSum / r.dispatchedCapacity else 0

/-- The clearing-price scan of `generate-supply-curve-js.ts` (lines
365-372): default `0`, first point whose `cumulative_mw >= demand` sets the
price.  Points are (cumulative_mw, price) pairs. -/
def chartClearingPrice (demand : ℚ) : List (ℚ × ℚ) → ℚ
  | [] => 0
  | (cumulative_mw, price) :: rest =>
    if demand ≤ cumulative_mw then price else chartClearingPrice demand rest

/-- `resourceColors` of `generate-supply-curve-js.ts`. -/
def resourceColors : List (String × String) :=
  [("WIND", "#2E8B57"), ("PVGR", "#FFD700"), ("SOLAR", "#FFD700"),
   ("HYDRO", "#4682B4"), ("NUCLEAR", "#32CD32"), ("COAL", "#8B4513"),
   ("GAS", "#FF6347"), ("CC", "#FF4500"), ("GT", "#FF8C00"),
   ("STEAM", "#DC143C"), ("BIOMASS", "#228B22"), ("PWRSTR", "#9932CC"),
   ("ESR", "#9932CC"), ("DC", "#FF1493"), ("SYNC_COND", "#708090"),
   ("OTHER", "#696969"), ("UNKNOWN", "#A9A9A9")]

/-- Character-list test for "`pre` is an initial run of `l`". -/
def leadsCL : List Char → List Char → Bool
  | [], _ => true
  | _ :: _, [] => false
  | a :: s, b :: t => a == b && leadsCL s t

/-- Character-list substring occurrence test. -/
def containsCL (sub : List Char) : List Char → Bool
  | [] => leadsCL sub []
  | a :: rest => leadsCL sub (a :: rest) || containsCL sub rest

/-- JavaScript `s.includes(sub)`. -/
def jsIncludes (s sub : String) : Bool :=
  containsCL sub.data s.data

/-- JavaScript `s.toUpperCase()`, character by character. -/
def jsToUpper (s : String) : String :=
  ⟨s.data.map Char.toUpper⟩

/-- `getColorForResourceType` of `generate-supply-curve-js.ts`: exact
lookup, then the substring cascade, then the OTHER colour. -/
def getColorForResourceType (resourceType : String) : String :=
  let resourceTypeUpper := jsToUpper resourceType
  match resourceColors.lookup resourceTypeUpper with
  | some c => c
  | none =>
    if jsIncludes resourceTypeUpper "WIND" then
      (resourceColors.lookup "WIND").getD ""
    else if jsIncludes resourceTypeUpper "SOLAR" || jsIncludes resourceTypeUpper "PV" then
      (resourceColors.lookup "PVGR").getD ""
    else if jsIncludes resourceTypeUpper "HYDRO" then
      (resourceColors.lookup "HYDRO").getD ""
    else if jsIncludes resourceTypeUpper "NUCLEAR" then
      (resourceColors.lookup "NUCLEAR").getD ""
    else if jsIncludes resourceTypeUpper "COAL" then
      (resourceColors.lookup "COAL").getD ""
    else if jsIncludes resourceTypeUpper "GAS" || jsIncludes resourceTypeUpper "NG" then
      (resourceColors.lookup "GAS").getD ""
    else if jsIncludes resourceTypeUpper "CC" || jsIncludes resourceTypeUpper "COMBINED" then
      (resourceColors.lookup "CC").getD ""
    else if jsIncludes resourceTypeUpper "GT" || jsIncludes resourceTypeUpper "TURBINE" then
      (resourceColors.lookup "GT").getD ""
    else if jsIncludes resourceTypeUpper "STEAM" then
      (resourceColors.lookup "STEAM").getD ""
    else if jsIncludes resourceTypeUpper "BIOMASS" || jsIncludes resourceTypeUpper "BIO" then
      (resourceColors.lookup "BIOMASS").getD ""
    else if jsIncludes resourceTypeUpper "BESS" || jsIncludes resourceTypeUpper "BATTERY" ||
        jsIncludes resourceTypeUpper "STORAGE" then
      (resourceColors.lookup "PWRSTR").getD ""
    else
      (resourceColors.lookup "OTHER").getD ""

/-- The `colorMap` of `gridstatus-python-bridge.ts` (lines 418-466). -/
def bridgeColorMap : List (String × String) :=
  [("WIND", "#22C55E"), ("SOLAR", "#FF8C00"), ("SCLE90", "#FF8C00"),
   ("NUCLEAR", "#7C3AED"), ("NUC", "#7C3AED"),
   ("GAS_CC", "#2563EB"), ("CCLE90", "#2563EB"), ("CCGT90", "#2563EB"),
   ("COAL", "#4B5563"),
   ("GAS_ST", "#DC2626"), ("PWRSTR", "#DC2626"),
   ("OIL_ST", "#EA580C"),
   ("GAS_CT", "#E11D48"), ("SCGT90", "#E11D48"),
   ("OIL_CT", "#65A30D"),
   ("HYDRO", "#0891B2"),
   ("GSREH", "#059669"), ("GSNONR", "#0D9488"),
   ("DSL", "#9333EA"), ("PVGR", "#F59E0B"), ("CLLIG", "#16A34A"),
   ("OTHER", "#6B7280")]

/-- `getColorForResourceType` of `gridstatus-python-bridge.ts` (lines
469-490): exact `colorMap` match on the original string, then the
substring cascade on the upper-cased string, then the default gray. -/
def bridgeColorForResourceType (resourceType : String) : String :=
  match bridgeColorMap.lookup resourceType with
  | some c => c
  | none =>
    let ty := jsToUpper resourceType
    if jsIncludes ty "WIND" then "#22C55E"
    else if jsIncludes ty "SOLAR" || jsIncludes ty "PV" then "#FF8C00"
    else if jsIncludes ty "NUC" then "#7C3AED"
    else if jsIncludes ty "CC" || jsIncludes ty "CCGT" then "#2563EB"
    else if jsIncludes ty "COAL" then "#4B5563"
    else if jsIncludes ty "ST" || jsIncludes ty "STEAM" then "#DC2626"
    else if jsIncludes ty "CT" || jsIncludes ty "SCGT" || jsIncludes ty "GT" then "#E11D48"
    else if jsIncludes ty "HYDRO" then "#0891B2"
    else if jsIncludes ty "GS" || jsIncludes ty "BESS" || jsIncludes ty "STORAGE" then "#059669"
    else "#6B7280"

/-- One iteration of the python-bridge endpoint's summary fold (lines
492-502): identical to the GridStatus endpoint's, except the entry colour
is resolved through `getColorForResourceType`. -/
def bridgeUpdateSummary (m : List (String × TypeSummary)) (p : ProcessedPoint) :
    List (String × TypeSummary) :=
  addCapacity
    (if (m.lookup (jsStrOr p.resource_type "OTHER")).isSome then m
     else m ++ [(jsStrOr p.resource_type "OTHER",
       ⟨0, p.price, bridgeColorForResourceType (jsStrOr p.resource_type "OTHER")⟩)])
    (jsStrOr p.resource_type "OTHER") p.mw

/-- The python-bridge endpoint's `resourceTypeMap`, folded over its
processed supply-curve points. -/
def bridgeResourceTypeSummary (processed : List ProcessedPoint) :
    List (String × TypeSummary) :=
  processed.foldl bridgeUpdateSummary []

/-- Sum of `mw` over expanded points. -/
def sumMw (l : List OfferCurvePoint) : ℚ :=
  (l.map OfferCurvePoint.mw).sum

/-- Sum of `mw` over processed points. -/
def sumMwP (l : List ProcessedPoint) : ℚ :=
  (l.map ProcessedPoint.mw).sum

/-- Sum of `capacity` over summary entries. -/
def sumCapacity (m : List (String × TypeSummary)) : ℚ :=
  (m.map (fun e => e.2.capacity)).sum

/-- Sum of `price * mw` over expanded points. -/
def weightedSum (l : List OfferCurvePoint) : ℚ :=
  (l.map (fun p => p.price * p.mw)).sum

/-- An offer-curve point as the two-element array the endpoint expects. -/
def pairPoint (q : ℚ × ℚ) : List ℚ :=
  [q.1, q.2]

/-! ### Helper lemmas -/

lemma sumMw_nil : sumMw [] = 0 := rfl

lemma sumMw_cons (p : OfferCurvePoint) (l : List OfferCurvePoint) :
    sumMw (p :: l) = p.mw + sumMw l := by
  simp [sumMw]

lemma sumMwP_nil : sumMwP [] = 0 := rfl

lemma sumMwP_cons (p : ProcessedPoint) (l : List ProcessedPoint) :
    sumMwP (p :: l) = p.mw + sumMwP l := by
  simp [sumMwP]

lemma sumMw_take_succ :
    ∀ (l : List OfferCurvePoint) (i : ℕ) (h : i < l.length),
      sumMw (l.take (i + 1)) = sumMw (l.take i) + (l.get ⟨i, h⟩).mw
  | p :: rest, 0, _ => by simp [sumMw]
  | p :: rest, i + 1, h => by
    have ih := sumMw_take_succ rest i (Nat.lt_of_succ_lt_succ h)
    simp only [List.take_succ_cons, sumMw_cons, List.get_cons_succ, ih]
    ring

lemma assignCumulative_snd :
    ∀ (l : List OfferCurvePoint) (c : ℚ), (assignCumulative l c).2 = c + sumMw l
  | [], c => by simp [assignCumulative, sumMw]
  | p :: rest, c => by
    simp only [assignCumulative, assignCumulative_snd rest (c + p.mw), sumMw_cons]
    ring

lemma assignCumulative_length :
    ∀ (l : List OfferCurvePoint) (c : ℚ), (assignCumulative l c).1.length = l.length
  | [], _ => rfl
  | p :: rest, c => by
    simp [assignCumulative, assignCumulative_length rest (c + p.mw)]

lemma assignCumulative_sumMw :
    ∀ (l : List OfferCurvePoint) (c : ℚ), sumMwP (assignCumulative l c).1 = sumMw l
  | [], _ => rfl
  | p :: rest, c => by
    simp only [assignCumulative, sumMwP_cons, sumMw_cons,
      assignCumulative_sumMw rest (c + p.mw)]

lemma assignCumulative_get :
    ∀ (l : List OfferCurvePoint) (c : ℚ) (i : ℕ)
      (h1 : i < (assignCumulative l c).1.length) (h2 : i < l.length),
      (assignCumulative l c).1.get ⟨i, h1⟩ =
        { mw := (l.get ⟨i, h2⟩).mw
          price := (l.get ⟨i, h2⟩).price
          resource_name := (l.get ⟨i, h2⟩).resource_name
          resource_type := (l.get ⟨i, h2⟩).resource_type
          cumulativeCapacity := c + sumMw (l.take i)
          cumulativeCapacityEnd := c + sumMw (l.take (i + 1)) }
  | p :: rest, c, 0, _, _ => by simp [assignCumulative, sumMw]
  | p :: rest, c, i + 1, h1, h2 => by
    have ih := assignCumulative_get rest (c + p.mw) i
      (by
        have := assignCumulative_length rest (c + p.mw)
        have hi := Nat.lt_of_succ_lt_succ h2
        omega)
      (Nat.lt_of_succ_lt_succ h2)
    simp only [assignCumulative, List.get_cons_succ, ih, List.take_succ_cons, sumMw_cons]
    simp [add_assoc]

lemma meritLe_trans (a b c : OfferCurvePoint) :
    meritLe a b = true → meritLe b c = true → meritLe a c = true := by
  simp only [meritLe, decide_eq_true_eq]
  rintro (h1 | ⟨h1, h1m⟩) (h2 | ⟨h2, h2m⟩)
  · exact Or.inl (lt_trans h1 h2)
  · exact Or.inl (h2 ▸ h1)
  · exact Or.inl (h1 ▸ h2)
  · exact Or.inr ⟨h1.trans h2, le_trans h1m h2m⟩

lemma meritLe_total (a b : OfferCurvePoint) :
    (meritLe a b || meritLe b a) = true := by
  simp only [meritLe, Bool.or_eq_true, decide_eq_true_eq]
  rcases lt_trichotomy a.price b.price with h | h | h
  · exact Or.inl (Or.inl h)
  · rcases le_total a.mw b.mw with hm | hm
    · exact Or.inl (Or.inr ⟨h, hm⟩)
    · exact Or.inr (Or.inr ⟨h.symm, hm⟩)
  · exact Or.inr (Or.inl h)

lemma priceLe_trans (a b c : OfferCurvePoint) :
    priceLe a b = true → priceLe b c = true → priceLe a c = true := by
  simp only [priceLe, decide_eq_true_eq]
  exact le_trans

lemma priceLe_total (a b : OfferCurvePoint) :
    (priceLe a b || priceLe b a) = true := by
  simp only [priceLe, Bool.or_eq_true, decide_eq_true_eq]
  exact le_total a.price b.price

lemma sortedSupplyCurve_pairwise (rows : List RawRow) :
    (sortedSupplyCurve rows).Pairwise (fun a b => meritLe a b = true) := by
  have := @List.sorted_mergeSort _ meritLe meritLe_trans meritLe_total (supplyData rows)
  simpa [sortedSupplyCurve] using this

lemma sumCapacity_cons (e : String × TypeSummary) (m : List (String × TypeSummary)) :
    sumCapacity (e :: m) = e.2.capacity + sumCapacity m := by
  simp [sumCapacity]

lemma sumCapacity_append (m1 m2 : List (String × TypeSummary)) :
    sumCapacity (m1 ++ m2) = sumCapacity m1 + sumCapacity m2 := by
  simp [sumCapacity]

lemma sumCapacity_addCapacity :
    ∀ (m : List (String × TypeSummary)) (t : String) (x : ℚ),
      (m.lookup t).isSome = true →
      sumCapacity (addCapacity m t x) = sumCapacity m + x
  | [], t, x, h => by simp [List.lookup] at h
  | (k, v) :: rest, t, x, h => by
    by_cases hk : k = t
    · subst hk
      simp [addCapacity, sumCapacity_cons]
      ring
    · have htk : (t == k) = false := by
        simp only [beq_eq_false_iff_ne, ne_eq]
        exact fun he => hk he.symm
      simp only [List.lookup, htk] at h
      simp only [addCapacity, if_neg hk, sumCapacity_cons,
        sumCapacity_addCapacity rest t x h]
      ring

lemma lookup_append_self :
    ∀ (m : List (String × TypeSummary)) (t : String) (e : TypeSummary),
      ((m ++ [(t, e)]).lookup t).isSome = true
  | [], t, e => by simp [List.lookup]
  | (k, v) :: rest, t, e => by
    simp only [List.cons_append, List.lookup]
    cases htk : (t == k)
    · exact lookup_append_self rest t e
    · simp [htk]

lemma sumCapacity_updateSummary (m : List (String × TypeSummary)) (p : ProcessedPoint) :
    sumCapacity (updateSummary m p) = sumCapacity m + p.mw := by
  unfold updateSummary
  by_cases h : (m.lookup (jsStrOr p.resource_type "OTHER")).isSome = true
  · rw [if_pos h, sumCapacity_addCapacity _ _ _ h]
  · rw [if_neg h]
    have h2 := lookup_append_self m (jsStrOr p.resource_type "OTHER")
      ⟨0, p.price, summaryColor (jsStrOr p.resource_type "OTHER")⟩
    rw [sumCapacity_addCapacity _ _ _ h2, sumCapacity_append]
    simp [sumCapacity]

lemma sumCapacity_foldl :
    ∀ (l : List ProcessedPoint) (m : List (String × TypeSummary)),
      sumCapacity (l.foldl updateSummary m) = sumCapacity m + sumMwP l
  | [], m => by simp [sumMwP]
  | p :: rest, m => by
    simp only [List.foldl_cons, sumCapacity_foldl rest (updateSummary m p),
      sumCapacity_updateSummary, sumMwP_cons]
    ring

/-! ### Claim theorems -/

/-- C3: in the builder's output sequence of supply-curve points, for every
pair of indices `i < j`, `price i ≤ price j`, and when the prices are equal
also `mw i ≤ mw j` (sort by price ascending, mw ascending tie-break). -/
theorem merit_order_invariant (rows : List RawRow) (i j : ℕ)
    (hj : j < (processedData rows).length) (hij : i < j) :
    ((processedData rows).get ⟨i, lt_trans hij hj⟩).price ≤
      ((processedData rows).get ⟨j, hj⟩).price ∧
    (((processedData rows).get ⟨i, lt_trans hij hj⟩).price =
        ((processedData rows).get ⟨j, hj⟩).price →
      ((processedData rows).get ⟨i, lt_trans hij hj⟩).mw ≤
        ((processedData rows).get ⟨j, hj⟩).mw) := by
  have hj' : j < (sortedSupplyCurve rows).length := by
    simpa [processedData, assignCumulative_length] using hj
  have hi' : i < (sortedSupplyCurve rows).length := lt_trans hij hj'
  have hpw := (List.pairwise_iff_get.mp (sortedSupplyCurve_pairwise rows))
    ⟨i, hi'⟩ ⟨j, hj'⟩ hij
  simp only [meritLe, decide_eq_true_eq] at hpw
  have e1 := assignCumulative_get (sortedSupplyCurve rows) 0 i (lt_trans hij hj) hi'
  have e2 := assignCumulative_get (sortedSupplyCurve rows) 0 j hj hj'
  unfold processedData
  rw [e1, e2]
  dsimp only
  rcases hpw with hlt | ⟨heq, hmw⟩
  · exact ⟨le_of_lt hlt, fun he => absurd (he ▸ hlt) (lt_irrefl _)⟩
  · exact ⟨le_of_eq heq, fun _ => hmw⟩

/-- C4: in the builder's output sequence, `cumulativeCapacityEnd i =
cumulativeCapacity i + mw i` for every index, consecutive points chain
(`cumulativeCapacity (i+1) = cumulativeCapacityEnd i`), and the first
point's `cumulativeCapacity` is 0. -/
theorem cumulative_capacity_invariant (rows : List RawRow) :
    (∀ (i : ℕ) (h : i < (processedData rows).length),
      ((processedData rows).get ⟨i, h⟩).cumulativeCapacityEnd =
        ((processedData rows).get ⟨i, h⟩).cumulativeCapacity +
          ((processedData rows).get ⟨i, h⟩).mw) ∧
    (∀ (i : ℕ) (h : i + 1 < (processedData rows).length),
      ((processedData rows).get ⟨i + 1, h⟩).cumulativeCapacity =
        ((processedData rows).get ⟨i, Nat.lt_of_succ_lt h⟩).cumulativeCapacityEnd) ∧
    (∀ h : 0 < (processedData rows).length,
      ((processedData rows).get ⟨0, h⟩).cumulativeCapacity = 0) := by
  refine ⟨?_, ?_, ?_⟩
  · intro i h
    have hi' : i < (sortedSupplyCurve rows).length := by
      simpa [processedData, assignCumulative_length] using h
    unfold processedData
    rw [assignCumulative_get (sortedSupplyCurve rows) 0 i h hi']
    dsimp only
    rw [sumMw_take_succ _ i hi']
    ring
  · intro i h
    have hi1 : i + 1 < (sortedSupplyCurve rows).length := by
      simpa [processedData, assignCumulative_length] using h
    have hi' : i < (sortedSupplyCurve rows).length := Nat.lt_of_succ_lt hi1
    unfold processedData
    rw [assignCumulative_get (sortedSupplyCurve rows) 0 (i + 1) h hi1,
      assignCumulative_get (sortedSupplyCurve rows) 0 i (Nat.lt_of_succ_lt h) hi']
  · intro h
    have h0 : 0 < (sortedSupplyCurve rows).length := by
      simpa [processedData, assignCumulative_length] using h
    unfold processedData
    rw [assignCumulative_get (sortedSupplyCurve rows) 0 0 h h0]
    simp [sumMw]

/-- C5: the builder's `totalCapacity` equals the sum of `mw` over all
emitted supply-curve segments, and also the sum of `capacity` over all
resource-type summary entries. -/
theorem conservation_totalCapacity (rows : List RawRow) :
    totalCapacity rows = sumMwP (processedData rows) ∧
    totalCapacity rows = sumCapacity (resourceTypeSummary rows) := by
  have h1 : totalCapacity rows = sumMw (sortedSupplyCurve rows) := by
    show (assignCumulative (sortedSupplyCurve rows) 0).2 = _
    rw [assignCumulative_snd]
    ring
  have h2 : sumMwP (processedData rows) = sumMw (sortedSupplyCurve rows) :=
    assignCumulative_sumMw (sortedSupplyCurve rows) 0
  refine ⟨h1.trans h2.symm, ?_⟩
  show totalCapacity rows = sumCapacity ((processedData rows).foldl updateSummary [])
  rw [sumCapacity_foldl, h1, h2]
  simp [sumCapacity]

lemma getLast?_getD_cons :
    ∀ (c : ℚ) (xs : List ℚ) (d : ℚ), ((c :: xs).getLast?).getD d = (xs.getLast?).getD c
  | _, [], _ => by simp
  | c, x :: xs, d => by
    rw [List.getLast?_cons_cons, getLast?_getD_cons x xs d, getLast?_getD_cons x xs c]

lemma chain_le_last :
    ∀ (c : ℚ) (xs : List ℚ), List.Chain (· ≤ ·) c xs → c ≤ (xs.getLast?).getD c
  | _, [], _ => le_refl _
  | c, x :: xs, h => by
    rcases List.chain_cons.mp h with ⟨hcx, hx⟩
    rw [getLast?_getD_cons]
    exact le_trans hcx (chain_le_last x xs hx)

lemma sumMw_processPoints_renewable (S : ℚ) (name ty : String) :
    ∀ (pts : List (ℚ × ℚ)) (prev sched : ℚ), sched < S →
      List.Chain (· ≤ ·) prev (pts.map Prod.fst) →
      sumMw (processPoints true S name ty (pts.map pairPoint) prev sched) =
        min (S - sched) (((pts.map Prod.fst).getLast?).getD prev - prev)
  | [], prev, sched, hs, _ => by
    have h0 : (0 : ℚ) ≤ S - sched := sub_nonneg.mpr (le_of_lt hs)
    simp [processPoints, sumMw, min_eq_right h0]
  | (c, p) :: rest, prev, sched, hs, hchain => by
    rcases List.chain_cons.mp (by simpa using hchain) with ⟨hpc, hrest⟩
    simp only [List.map_cons, pairPoint]
    rw [getLast?_getD_cons]
    show sumMw (processPoints true S name ty
      ((c :: p :: []) :: rest.map pairPoint) prev sched) = _
    simp only [processPoints]
    by_cases hseg : 0 < c - prev
    · rw [if_pos hseg, if_pos trivial, if_pos hs]
      by_cases hbreak : S ≤ sched + min (c - prev) (S - sched)
      · rw [if_pos hbreak, sumMw_cons, sumMw_nil]
        dsimp only
        have hmin_le : min (c - prev) (S - sched) ≤ S - sched := min_le_right _ _
        have hmineq : min (c - prev) (S - sched) = S - sched :=
          le_antisymm hmin_le (by linarith)
        have h1 : S - sched ≤ c - prev := by
          have h2 := min_le_left (c - prev) (S - sched)
          rw [hmineq] at h2
          exact h2
        have hc_last : c ≤ ((rest.map Prod.fst).getLast?).getD c := chain_le_last c _ hrest
        rw [hmineq, min_eq_left (by linarith :
          S - sched ≤ ((rest.map Prod.fst).getLast?).getD c - prev)]
        ring
      · rw [if_neg hbreak, sumMw_cons]
        dsimp only
        push_neg at hbreak
        have hne : min (c - prev) (S - sched) = c - prev := by
          rcases min_cases (c - prev) (S - sched) with ⟨h, _⟩ | ⟨h, _⟩
          · exact h
          · exfalso
            rw [h] at hbreak
            linarith
        rw [hne]
        have hsched' : sched + (c - prev) < S := by
          rw [hne] at hbreak
          exact hbreak
        rw [sumMw_processPoints_renewable S name ty rest c (sched + (c - prev))
          hsched' hrest]
        rw [← min_add_add_left]
        congr 1 <;> ring
    · rw [if_neg hseg]
      rw [sumMw_processPoints_renewable S name ty rest c sched hs hrest]
      have hcp : c = prev := le_antisymm (by linarith) hpc
      rw [hcp]

/-- C1: for every eligible renewable generator record (WIND/PVGR, status not
excluded, positive output schedule) whose offer curve has non-negative,
non-decreasing cumulative-MW values, the sum of the emitted segment `mw`
equals `min(output_schedule, final cumulative MW)` within 0.1 MW. -/
theorem renewable_truncation_bound (r : RawRow) (pts : List (ℚ × ℚ)) (S : ℚ)
    (hcurve : r.sced_tpo_offer_curve = pts.map pairPoint)
    (htype : r.resource_type = some "WIND" ∨ r.resource_type = some "PVGR")
    (hstatus : isExcludedStatus r = false)
    (hsched : r.output_schedule = some S) (hS : 0 < S)
    (hchain : List.Chain (· ≤ ·) 0 (pts.map Prod.fst)) :
    |sumMw (recordSegments r) - min S (((pts.map Prod.fst).getLast?).getD 0)| ≤ 1 / 10 := by
  have hren : isRenewableToTruncate r = true := by
    rcases htype with h | h <;> simp [isRenewableToTruncate, h]
  have hcond : (isRenewableToTruncate r && decide (S ≤ 0)) = false := by
    rw [hren, Bool.true_and, decide_eq_false_iff_not]
    exact not_le.mpr hS
  have hclass : recordSegments r =
      processPoints true S (jsOptStrOr r.resource_name "UNKNOWN_GENERATOR")
        (jsOptStrOr r.resource_type "UNKNOWN_TYPE") (pts.map pairPoint) 0 0 := by
    rw [recordSegments, if_neg (by rw [hstatus]; exact Bool.false_ne_true), hsched]
    dsimp only
    rw [if_neg (by rw [hcond]; exact Bool.false_ne_true), hren, hcurve]
  rw [hclass, sumMw_processPoints_renewable S _ _ pts 0 0 hS hchain]
  simp

lemma weightedSum_nil : weightedSum [] = 0 := rfl

lemma weightedSum_cons (p : OfferCurvePoint) (l : List OfferCurvePoint) :
    weightedSum (p :: l) = p.price * p.mw + weightedSum l := by
  simp [weightedSum]

lemma sumMw_nonneg (l : List OfferCurvePoint) (h : ∀ p ∈ l, 0 ≤ p.mw) :
    0 ≤ sumMw l := by
  induction l with
  | nil => simp [sumMw]
  | cons p rest ih =>
    rw [sumMw_cons]
    have h1 := h p (List.mem_cons_self p rest)
    have h2 := ih fun q hq => h q (List.mem_cons_of_mem p hq)
    linarith

lemma statsLoop_no_break (d : ℚ) :
    ∀ (l : List OfferCurvePoint) (cum disp w : ℚ),
      (∀ p ∈ l, 0 ≤ p.mw) → cum + sumMw l < d →
      statsLoop d l cum disp w = ⟨50, "TBD", disp + sumMw l, w + weightedSum l⟩
  | [], cum, disp, w, _, _ => by
    simp [statsLoop, sumMw, weightedSum]
  | p :: rest, cum, disp, w, hpos, h => by
    have hrest_nonneg : 0 ≤ sumMw rest :=
      sumMw_nonneg rest fun q hq => hpos q (List.mem_cons_of_mem p hq)
    rw [sumMw_cons] at h
    have hno : ¬ d ≤ cum + p.mw := by linarith
    rw [statsLoop, if_neg hno,
      statsLoop_no_break d rest (cum + p.mw) (disp + p.mw) (w + p.price * p.mw)
        (fun q hq => hpos q (List.mem_cons_of_mem p hq)) (by linarith)]
    rw [sumMw_cons, weightedSum_cons]
    simp only [StatsResult.mk.injEq, true_and]
    constructor <;> ring

/-- C2 (amended): when demand strictly exceeds the total capacity of the
supply curve (all segments having non-negative `mw`), the `stats`
computation of `database.ts` silently returns its initialized defaults —
clearing price 50 and marginal resource type `'TBD'` — with no explicit
shortfall indicator. -/
theorem shortfall_returns_default (sourceData : List OfferCurvePoint) (d : ℚ)
    (hpos : ∀ p ∈ sourceData, 0 ≤ p.mw) (hd : sumMw sourceData < d) :
    (marketStats sourceData d).clearingPrice = 50 ∧
    (marketStats sourceData d).marginalResourceType = "TBD" := by
  have hperm : (sourceData.mergeSort priceLe).Perm sourceData :=
    List.mergeSort_perm sourceData priceLe
  have hsum : sumMw (sourceData.mergeSort priceLe) = sumMw sourceData :=
    List.Perm.sum_eq (hperm.map OfferCurvePoint.mw)
  have hpos' : ∀ p ∈ sourceData.mergeSort priceLe, 0 ≤ p.mw :=
    fun p hp => hpos p (hperm.mem_iff.mp hp)
  unfold marketStats
  rw [statsLoop_no_break d _ 0 0 0 hpos' (by rw [hsum]; linarith)]
  exact ⟨rfl, rfl⟩

/-- Concrete shortfall curve: one 100 MW segment priced at 20. -/
def shortfallCurve : List OfferCurvePoint :=
  [⟨100, 20, "G1", "GAS_CC"⟩]

/-- C2 (counterexample): with demand 250 against 100 MW of supply, the
`stats` computation returns clearing price 50 — its initialization
default, not the price of any segment — and marginal type `'TBD'`; the
chart endpoint's scan likewise returns its default 0.  No structured
infeasible result is produced. -/
theorem shortfall_silent_default_counterexample :
    (marketStats shortfallCurve 250).clearingPrice = 50 ∧
    (marketStats shortfallCurve 250).marginalResourceType = "TBD" ∧
    (50 : ℚ) ∉ shortfallCurve.map OfferCurvePoint.price ∧
    chartClearingPrice 250 [(100, 20)] = 0 := by
  refine ⟨?_, ?_, ?_, ?_⟩
  · norm_num [marketStats, statsLoop, shortfallCurve, List.mergeSort]
  · norm_num [marketStats, statsLoop, shortfallCurve, List.mergeSort]
  · norm_num [shortfallCurve]
  · norm_num [chartClearingPrice]

lemma statsLoop_break (d : ℚ) :
    ∀ (l : List OfferCurvePoint) (i : ℕ) (hi : i < l.length) (cum disp w : ℚ),
      (∀ j, j < i → cum + sumMw (l.take (j + 1)) < d) →
      d ≤ cum + sumMw (l.take (i + 1)) →
      statsLoop d l cum disp w =
        ⟨(l.get ⟨i, hi⟩).price, jsStrOr (l.get ⟨i, hi⟩).resource_type "Unknown",
         disp + sumMw (l.take i) + (d - (cum + sumMw (l.take i))),
         w + weightedSum (l.take i) +
           (l.get ⟨i, hi⟩).price * (d - (cum + sumMw (l.take i)))⟩
  | [], i, hi, _, _, _, _, _ => absurd hi (by simp)
  | p :: rest, 0, hi, cum, disp, w, _, hbreak => by
    rw [List.take_succ_cons, List.take_zero, sumMw_cons, sumMw_nil] at hbreak
    have hb : d ≤ cum + p.mw := by linarith
    rw [statsLoop, if_pos hb]
    have hget : (p :: rest).get ⟨0, hi⟩ = p := rfl
    rw [hget]
    simp only [List.take_zero, sumMw_nil, weightedSum_nil, StatsResult.mk.injEq,
      eq_self_iff_true, true_and]
    constructor <;> ring
  | p :: rest, i + 1, hi, cum, disp, w, hfirst, hbreak => by
    have h0 : cum + p.mw < d := by
      have := hfirst 0 (Nat.succ_pos i)
      rw [List.take_succ_cons, List.take_zero, sumMw_cons, sumMw_nil] at this
      linarith
    have hno : ¬ d ≤ cum + p.mw := by linarith
    have hi' : i < rest.length := Nat.lt_of_succ_lt_succ hi
    have hfirst' : ∀ j, j < i → (cum + p.mw) + sumMw (rest.take (j + 1)) < d := by
      intro j hj
      have := hfirst (j + 1) (Nat.succ_lt_succ hj)
      rw [List.take_succ_cons, sumMw_cons] at this
      linarith
    have hbreak' : d ≤ (cum + p.mw) + sumMw (rest.take (i + 1)) := by
      rw [List.take_succ_cons, sumMw_cons] at hbreak
      linarith
    rw [statsLoop, if_neg hno,
      statsLoop_break d rest i hi' (cum + p.mw) (disp + p.mw) (w + p.price * p.mw)
        hfirst' hbreak']
    simp only [List.take_succ_cons, sumMw_cons, weightedSum_cons, List.get_cons_succ,
      StatsResult.mk.injEq, true_and]
    refine ⟨?_, ?_⟩ <;> ring

/-- C6: for a merit-order-sorted supply curve and demand `0 < d` at most
total capacity, the clearing price is the price of the first segment in
sorted order whose cumulative capacity end reaches `d`, and the marginal
resource type is that segment's resource type. -/
theorem clearing_price_marginal_segment (curve : List OfferCurvePoint) (d : ℚ) (i : ℕ)
    (hsorted : curve.Pairwise (fun a b => meritLe a b = true))
    (hd : 0 < d)
    (hi : i < curve.length)
    (hbreak : d ≤ sumMw (curve.take (i + 1)))
    (hfirst : ∀ j, j < i → sumMw (curve.take (j + 1)) < d)
    (ht : (curve.get ⟨i, hi⟩).resource_type ≠ "") :
    (marketStats curve d).clearingPrice = (curve.get ⟨i, hi⟩).price ∧
    (marketStats curve d).marginalResourceType = (curve.get ⟨i, hi⟩).resource_type := by
  have hpair : curve.Pairwise (fun a b => priceLe a b = true) := by
    refine hsorted.imp ?_
    intro a b h
    simp only [meritLe, decide_eq_true_eq] at h
    simp only [priceLe, decide_eq_true_eq]
    rcases h with h | ⟨h, _⟩
    · exact le_of_lt h
    · exact le_of_eq h
  have hsort_eq : curve.mergeSort priceLe = curve := List.mergeSort_of_sorted hpair
  unfold marketStats
  rw [hsort_eq, statsLoop_break d curve i hi 0 0 0
    (by intro j hj; have := hfirst j hj; linarith) (by linarith)]
  dsimp only
  refine ⟨rfl, ?_⟩
  rw [jsStrOr, if_neg ht]

/-- C7: for a merit-order-sorted supply curve and demand `0 < d` reaching
the marginal segment `i`, the reported average generation cost equals
Σ(price·dispatchedMw)/Σ(dispatchedMw), where segments before the marginal
one contribute their full `mw` and the marginal segment contributes
`d` minus its cumulative capacity start. -/
theorem avg_cost_dispatch_weighted (curve : List OfferCurvePoint) (d : ℚ) (i : ℕ)
    (hsorted : curve.Pairwise (fun a b => meritLe a b = true))
    (hd : 0 < d)
    (hi : i < curve.length)
    (hbreak : d ≤ sumMw (curve.take (i + 1)))
    (hfirst : ∀ j, j < i → sumMw (curve.take (j + 1)) < d) :
    avgGenCost curve d =
      (weightedSum (curve.take i) +
          (curve.get ⟨i, hi⟩).price * (d - sumMw (curve.take i))) /
        (sumMw (curve.take i) + (d - sumMw (curve.take i))) := by
  have hpair : curve.Pairwise (fun a b => priceLe a b = true) := by
    refine hsorted.imp ?_
    intro a b h
    simp only [meritLe, decide_eq_true_eq] at h
    simp only [priceLe, decide_eq_true_eq]
    rcases h with h | ⟨h, _⟩
    · exact le_of_lt h
    · exact le_of_eq h
  have hsort_eq : curve.mergeSort priceLe = curve := List.mergeSort_of_sorted hpair
  unfold avgGenCost marketStats
  rw [hsort_eq, statsLoop_break d curve i hi 0 0 0
    (by intro j hj; have := hfirst j hj; linarith) (by linarith)]
  dsimp only
  have hdisp : 0 + sumMw (curve.take i) + (d - (0 + sumMw (curve.take i))) = d := by
    ring
  rw [if_pos (by rw [hdisp]; exact hd)]
  rw [hdisp]
  have hnum : 0 + weightedSum (curve.take i) +
      (curve.get ⟨i, hi⟩).price * (d - (0 + sumMw (curve.take i))) =
      weightedSum (curve.take i) +
        (curve.get ⟨i, hi⟩).price * (d - sumMw (curve.take i)) := by
    ring
  rw [hnum]
  have hden : sumMw (curve.take i) + (d - sumMw (curve.take i)) = d := by ring
  rw [hden]

/-- A row is skipped for excluded operating status. -/
def skipStatusP (r : RawRow) : Bool := isExcludedStatus r

/-- A row (not status-skipped) is skipped for missing `output_schedule`. -/
def skipMissingP (r : RawRow) : Bool :=
  !isExcludedStatus r && r.output_schedule.isNone

/-- A row (not status-skipped, schedule present) is a renewable skipped for
zero/negative `output_schedule`. -/
def skipZeroP (r : RawRow) : Bool :=
  !isExcludedStatus r &&
    (match r.output_schedule with
     | none => false
     | some s => isRenewableToTruncate r && decide (s ≤ 0))

lemma stepRow_counters (st : BuildState) (r : RawRow) :
    (stepRow st r).skippedForStatus =
      st.skippedForStatus + (if skipStatusP r then 1 else 0) ∧
    (stepRow st r).skippedForMissingSchedule =
      st.skippedForMissingSchedule + (if skipMissingP r then 1 else 0) ∧
    (stepRow st r).skippedForZeroSchedule =
      st.skippedForZeroSchedule + (if skipZeroP r then 1 else 0) := by
  unfold stepRow skipStatusP skipMissingP skipZeroP
  cases hex : isExcludedStatus r
  · cases hos : r.output_schedule with
    | none => simp [hos]
    | some s =>
      by_cases hz : (isRenewableToTruncate r && decide (s ≤ 0)) = true
      · simp [hos, hz]
      · simp only [Bool.not_eq_true] at hz
        simp [hos, hz]
  · simp

lemma buildState_counters :
    ∀ (rows : List RawRow) (st : BuildState),
      (rows.foldl stepRow st).skippedForStatus =
        st.skippedForStatus + rows.countP skipStatusP ∧
      (rows.foldl stepRow st).skippedForMissingSchedule =
        st.skippedForMissingSchedule + rows.countP skipMissingP ∧
      (rows.foldl stepRow st).skippedForZeroSchedule =
        st.skippedForZeroSchedule + rows.countP skipZeroP
  | [], st => by simp
  | r :: rest, st => by
    obtain ⟨h1, h2, h3⟩ := buildState_counters rest (stepRow st r)
    obtain ⟨g1, g2, g3⟩ := stepRow_counters st r
    rw [List.foldl_cons]
    refine ⟨?_, ?_, ?_⟩
    · rw [h1, g1, List.countP_cons]
      split_ifs <;> omega
    · rw [h2, g2, List.countP_cons]
      split_ifs <;> omega
    · rw [h3, g3, List.countP_cons]
      split_ifs <;> omega

/-- C8 (amended): the builder computes the three skip counters — records
skipped for excluded status, for missing `output_schedule`, and renewables
skipped for zero/negative schedule — as exact counts over the input rows,
but only logs them; the returned `metadata` object carries just the
original/processed/expanded point counts (see the companion
counterexample). -/
theorem skip_counts_computed_not_returned (rows : List RawRow) :
    (buildState rows).skippedForStatus = rows.countP skipStatusP ∧
    (buildState rows).skippedForMissingSchedule = rows.countP skipMissingP ∧
    (buildState rows).skippedForZeroSchedule = rows.countP skipZeroP := by
  obtain ⟨h1, h2, h3⟩ := buildState_counters rows initState
  exact ⟨by simpa [initState] using h1, by simpa [initState] using h2,
    by simpa [initState] using h3⟩

/-- A row skipped for excluded operating status. -/
def rowOut : RawRow := ⟨some "OUT", some "G2", some "NUC", [[100, 20]], some 50⟩

/-- A row skipped for missing `output_schedule`. -/
def rowMissing : RawRow := ⟨some "ON", some "G3", some "NUC", [[100, 20]], none⟩

/-- C8 (counterexample): two single-row inputs, one skipped for status and
one for missing schedule, produce identical response metadata while their
skip counters differ — so no function of the returned metadata recovers
the skip counts; the counts are not part of the returned result. -/
theorem skip_counts_not_in_metadata_counterexample :
    responseMetadata "s" "e" [rowOut] = responseMetadata "s" "e" [rowMissing] ∧
    (buildState [rowOut]).skippedForStatus = 1 ∧
    (buildState [rowMissing]).skippedForStatus = 0 ∧
    ¬ ∃ f : Metadata → ℕ × ℕ × ℕ,
      ∀ rows : List RawRow,
        f (responseMetadata "s" "e" rows) =
          ((buildState rows).skippedForStatus,
           (buildState rows).skippedForMissingSchedule,
           (buildState rows).skippedForZeroSchedule) := by
  have hOut : ("OUT" = "OUT" ∨ "OUT" = "OFF" ∨ "OUT" = "OFFNS") = True :=
    eq_true (by decide)
  have hON : ("ON" = "OUT" ∨ "ON" = "OFF" ∨ "ON" = "OFFNS") = False :=
    eq_false (by decide)
  have hmeta : responseMetadata "s" "e" [rowOut] = responseMetadata "s" "e" [rowMissing] := by
    simp [responseMetadata, processedData, sortedSupplyCurve, supplyData,
      expandedData, buildState, initState, stepRow, isExcludedStatus,
      excludedStatuses, rowOut, rowMissing, assignCumulative, hOut, hON]
  have hcountOut : (buildState [rowOut]).skippedForStatus = 1 := by
    simp [buildState, initState, stepRow, isExcludedStatus, excludedStatuses,
      rowOut, hOut]
  have hcountMissing : (buildState [rowMissing]).skippedForStatus = 0 := by
    simp [buildState, initState, stepRow, isExcludedStatus, excludedStatuses,
      rowMissing, hON]
  refine ⟨hmeta, hcountOut, hcountMissing, ?_⟩
  rintro ⟨f, hf⟩
  have hOut := hf [rowOut]
  have hMissing := hf [rowMissing]
  rw [hmeta, hMissing] at hOut
  have := congrArg Prod.fst hOut
  dsimp only at this
  rw [hcountOut, hcountMissing] at this
  exact absurd this (by norm_num)

lemma mem_addCapacity :
    ∀ (m : List (String × TypeSummary)) (t : String) (x : ℚ)
      (t' : String) (e : TypeSummary),
      (t', e) ∈ addCapacity m t x →
      (t', e) ∈ m ∨ ∃ e', (t', e') ∈ m ∧ e = { e' with capacity := e'.capacity + x }
  | [], _, _, _, _, h => absurd h (List.not_mem_nil _)
  | (k, v) :: rest, t, x, t', e, h => by
    by_cases hk : k = t
    · rw [addCapacity, if_pos hk] at h
      rcases List.mem_cons.mp h with heq | hmem
      · have ht' : t' = k := congrArg Prod.fst heq
        have he : e = { v with capacity := v.capacity + x } := congrArg Prod.snd heq
        right
        refine ⟨v, ?_, he⟩
        rw [ht']
        exact List.mem_cons_self _ _
      · exact Or.inl (List.mem_cons_of_mem _ hmem)
    · rw [addCapacity, if_neg hk] at h
      rcases List.mem_cons.mp h with heq | hmem
      · exact Or.inl (heq ▸ List.mem_cons_self _ _)
      · rcases mem_addCapacity rest t x t' e hmem with h1 | ⟨e', he', hE⟩
        · exact Or.inl (List.mem_cons_of_mem _ h1)
        · exact Or.inr ⟨e', List.mem_cons_of_mem _ he', hE⟩

lemma summary_fold_color :
    ∀ (l : List ProcessedPoint) (m : List (String × TypeSummary)),
      (∀ t e, (t, e) ∈ m → e.color = summaryColor t) →
      ∀ t e, (t, e) ∈ l.foldl updateSummary m → e.color = summaryColor t
  | [], m, hm => by simpa using hm
  | p :: rest, m, hm => by
    intro t e he
    rw [List.foldl_cons] at he
    refine summary_fold_color rest (updateSummary m p) ?_ t e he
    intro t' e' he'
    have hm1 : ∀ t2 e2,
        (t2, e2) ∈ (if (m.lookup (jsStrOr p.resource_type "OTHER")).isSome then m
          else m ++ [(jsStrOr p.resource_type "OTHER",
            ⟨0, p.price, summaryColor (jsStrOr p.resource_type "OTHER")⟩)]) →
        e2.color = summaryColor t2 := by
      intro t2 e2 h1
      split at h1
      · exact hm t2 e2 h1
      · rcases List.mem_append.mp h1 with h2 | h2
        · exact hm t2 e2 h2
        · have h3 := List.mem_singleton.mp h2
          have ht2 := congrArg Prod.fst h3
          have he2 := congrArg Prod.snd h3
          dsimp only at ht2 he2
          rw [ht2, he2]
    unfold updateSummary at he'
    rcases mem_addCapacity _ _ _ _ _ he' with h | ⟨e'', he'', hE⟩
    · exact hm1 t' e' h
    · rw [hE]
      exact hm1 t' e'' he''

lemma bridge_summary_fold_color :
    ∀ (l : List ProcessedPoint) (m : List (String × TypeSummary)),
      (∀ t e, (t, e) ∈ m → e.color = bridgeColorForResourceType t) →
      ∀ t e, (t, e) ∈ l.foldl bridgeUpdateSummary m →
        e.color = bridgeColorForResourceType t
  | [], m, hm => by simpa using hm
  | p :: rest, m, hm => by
    intro t e he
    rw [List.foldl_cons] at he
    refine bridge_summary_fold_color rest (bridgeUpdateSummary m p) ?_ t e he
    intro t' e' he'
    have hm1 : ∀ t2 e2,
        (t2, e2) ∈ (if (m.lookup (jsStrOr p.resource_type "OTHER")).isSome then m
          else m ++ [(jsStrOr p.resource_type "OTHER",
            ⟨0, p.price, bridgeColorForResourceType (jsStrOr p.resource_type "OTHER")⟩)]) →
        e2.color = bridgeColorForResourceType t2 := by
      intro t2 e2 h1
      split at h1
      · exact hm t2 e2 h1
      · rcases List.mem_append.mp h1 with h2 | h2
        · exact hm t2 e2 h2
        · have h3 := List.mem_singleton.mp h2
          have ht2 := congrArg Prod.fst h3
          have he2 := congrArg Prod.snd h3
          dsimp only at ht2 he2
          rw [ht2, he2]
    unfold bridgeUpdateSummary at he'
    rcases mem_addCapacity _ _ _ _ _ he' with h | ⟨e'', he'', hE⟩
    · exact hm1 t' e' h
    · rw [hE]
      exact hm1 t' e'' he''

/-- C9 (amended): in the GridStatus endpoint (part_005) every entry of the
resource-type summary gets its color by exact lookup in the fixed
`colorMap` with direct fallback to the default `'#9CA3AF'` — no substring
heuristics in that summary — while the python-bridge endpoint's
resource-type summary resolves each entry's color through its
`getColorForResourceType` cascade (exact match, then substring rules, then
the default `'#6B7280'`). -/
theorem summary_color_exact_or_default (rows : List RawRow)
    (processed : List ProcessedPoint) :
    (∀ (t : String) (e : TypeSummary), (t, e) ∈ resourceTypeSummary rows →
      e.color = summaryColor t) ∧
    (∀ (t : String) (e : TypeSummary), (t, e) ∈ bridgeResourceTypeSummary processed →
      e.color = bridgeColorForResourceType t) := by
  constructor
  · intro t e he
    exact summary_fold_color (processedData rows) []
      (fun t' e' h => absurd h (List.not_mem_nil _)) t e he
  · intro t e he
    exact bridge_summary_fold_color processed []
      (fun t' e' h => absurd h (List.not_mem_nil _)) t e he

/-- A single active generator whose resource type contains `WIND` but is
not an exact `colorMap` key. -/
def rowsWindLike : List RawRow :=
  [⟨some "ON", some "W1", some "WIND2", [[100, 25]], some 50⟩]

/-- C9 (counterexample): resource type `'WIND2'` contains `'WIND'`, yet the
GridStatus endpoint's resource-type summary assigns it the default color
`'#9CA3AF'`, not the wind color `'#10B981'` — that summary applies no
substring heuristics (the chart endpoint's `getColorForResourceType` would
return its wind color `'#2E8B57'` for the same string). -/
theorem summary_color_no_substring_counterexample :
    jsIncludes "WIND2" "WIND" = true ∧
    (resourceTypeSummary rowsWindLike).lookup "WIND2" =
      some ⟨100, 25, "#9CA3AF"⟩ ∧
    colorMap.lookup "WIND" = some "#10B981" ∧
    ("#9CA3AF" : String) ≠ "#10B981" ∧
    getColorForResourceType "WIND2" = "#2E8B57" := by
  refine ⟨by decide, ?_, by decide, by decide, by decide⟩
  have hON : ("ON" = "OUT" ∨ "ON" = "OFF" ∨ "ON" = "OFFNS") = False :=
    eq_false (by decide)
  have hW : ("WIND2" = "WIND" ∨ "WIND2" = "PVGR") = False := eq_false (by decide)
  have hW1 : ("W1" = "") = False := eq_false (by decide)
  have hW2 : ("WIND2" = "") = False := eq_false (by decide)
  norm_num [resourceTypeSummary, processedData, sortedSupplyCurve, supplyData,
    expandedData, buildState, initState, stepRow, processPoints, isExcludedStatus,
    isRenewableToTruncate, excludedStatuses, jsOptStrOr, jsStrOr,
    assignCumulative, updateSummary, addCapacity, summaryColor, colorMap,
    List.lookup, rowsWindLike, hON, hW, hW1, hW2]
  decide

lemma processPoints_fields (isRen : Bool) (S : ℚ) (name ty : String) :
    ∀ (curve : List (List ℚ)) (prev sched : ℚ) (seg : OfferCurvePoint),
      seg ∈ processPoints isRen S name ty curve prev sched →
      seg.resource_name = name ∧ seg.resource_type = ty
  | [], _, _, _, h => absurd h (List.not_mem_nil _)
  | (c :: p :: []) :: rest, prev, sched, seg, h => by
    simp only [processPoints] at h
    split_ifs at h
    all_goals
      first
        | (rw [List.mem_singleton] at h
           subst h
           exact ⟨rfl, rfl⟩)
        | (rcases List.mem_cons.mp h with h | h
           · subst h
             exact ⟨rfl, rfl⟩
           · exact processPoints_fields isRen S name ty rest _ _ seg h)
        | exact processPoints_fields isRen S name ty rest _ _ seg h
  | ([]) :: rest, prev, sched, seg, h =>
    processPoints_fields isRen S name ty rest prev sched seg h
  | (a :: []) :: rest, prev, sched, seg, h =>
    processPoints_fields isRen S name ty rest prev sched seg h
  | (a :: b :: x :: tail) :: rest, prev, sched, seg, h =>
    processPoints_fields isRen S name ty rest prev sched seg h

/-- C10: a missing `resource_name` or `resource_type` never drops a record
that passed the status and schedule filters: the builder behaves exactly as
if the placeholder `'UNKNOWN_GENERATOR'` / `'UNKNOWN_TYPE'` had been
supplied, and every emitted segment carries the placeholder-defaulted
identity; the behaviour is unconditional (no configuration flag). -/
theorem missing_identity_placeholders (r : RawRow) :
    recordSegments { r with resource_name := none } =
      recordSegments { r with resource_name := some "UNKNOWN_GENERATOR" } ∧
    recordSegments { r with resource_type := none } =
      recordSegments { r with resource_type := some "UNKNOWN_TYPE" } ∧
    ∀ seg ∈ recordSegments r,
      seg.resource_name = jsOptStrOr r.resource_name "UNKNOWN_GENERATOR" ∧
      seg.resource_type = jsOptStrOr r.resource_type "UNKNOWN_TYPE" := by
  obtain ⟨st, nm, ty, curve, os⟩ := r
  refine ⟨?_, ?_, ?_⟩
  · cases os <;>
      simp [recordSegments, isExcludedStatus, isRenewableToTruncate, jsOptStrOr, jsStrOr]
  · cases os <;>
      simp [recordSegments, isExcludedStatus, isRenewableToTruncate, jsOptStrOr, jsStrOr]
  · intro seg hseg
    rw [recordSegments] at hseg
    split_ifs at hseg with h1
    · exact absurd hseg (List.not_mem_nil _)
    · cases os with
      | none => exact absurd hseg (List.not_mem_nil _)
      | some S =>
        dsimp only at hseg
        split_ifs at hseg with h2
        · exact absurd hseg (List.not_mem_nil _)
        · exact processPoints_fields _ _ _ _ _ _ _ seg hseg

/-! ### Concrete witnesses -/

/-- One active non-renewable generator, offer curve `[(100,20),(200,35)]`. -/
def rowsA : List RawRow :=
  [⟨some "ON", some "G1", some "NUC", [[100, 20], [200, 35]], some 150⟩]

lemma processedData_rowsA :
    processedData rowsA =
      [⟨100, 20, "G1", "NUC", 0, 100⟩, ⟨100, 35, "G1", "NUC", 100, 200⟩] := by
  have hON : ("ON" = "OUT" ∨ "ON" = "OFF" ∨ "ON" = "OFFNS") = False :=
    eq_false (by decide)
  have hNuc : ("NUC" = "WIND" ∨ "NUC" = "PVGR") = False := eq_false (by decide)
  have hG1 : ("G1" = "") = False := eq_false (by decide)
  have hN : ("NUC" = "") = False := eq_false (by decide)
  norm_num [processedData, sortedSupplyCurve, supplyData, expandedData, buildState,
    initState, stepRow, processPoints, isExcludedStatus, isRenewableToTruncate,
    excludedStatuses, jsOptStrOr, jsStrOr, List.mergeSort, List.merge, meritLe,
    assignCumulative, rowsA, hON, hNuc, hG1, hN]

lemma rowsA_len1 : 1 < (processedData rowsA).length := by
  rw [processedData_rowsA]
  norm_num

lemma rowsA_len0 : 0 < (processedData rowsA).length := by
  rw [processedData_rowsA]
  norm_num

lemma rowsA_len01 : 0 + 1 < (processedData rowsA).length := by
  rw [processedData_rowsA]
  norm_num

theorem merit_order_invariant_witness :
    ((processedData rowsA).get ⟨0, lt_trans Nat.zero_lt_one rowsA_len1⟩).price ≤
      ((processedData rowsA).get ⟨1, rowsA_len1⟩).price ∧
    (((processedData rowsA).get ⟨0, lt_trans Nat.zero_lt_one rowsA_len1⟩).price =
        ((processedData rowsA).get ⟨1, rowsA_len1⟩).price →
      ((processedData rowsA).get ⟨0, lt_trans Nat.zero_lt_one rowsA_len1⟩).mw ≤
        ((processedData rowsA).get ⟨1, rowsA_len1⟩).mw) :=
  merit_order_invariant rowsA 0 1 rowsA_len1 Nat.zero_lt_one

theorem cumulative_capacity_invariant_witness :
    ((processedData rowsA).get ⟨0, rowsA_len0⟩).cumulativeCapacityEnd =
      ((processedData rowsA).get ⟨0, rowsA_len0⟩).cumulativeCapacity +
        ((processedData rowsA).get ⟨0, rowsA_len0⟩).mw ∧
    ((processedData rowsA).get ⟨0 + 1, rowsA_len01⟩).cumulativeCapacity =
      ((processedData rowsA).get ⟨0, Nat.lt_of_succ_lt rowsA_len01⟩).cumulativeCapacityEnd ∧
    ((processedData rowsA).get ⟨0, rowsA_len0⟩).cumulativeCapacity = 0 :=
  ⟨(cumulative_capacity_invariant rowsA).1 0 rowsA_len0,
   (cumulative_capacity_invariant rowsA).2.1 0 rowsA_len01,
   (cumulative_capacity_invariant rowsA).2.2 rowsA_len0⟩

/-- Scenario B: a WIND generator, curve `[(50,-5),(150,0),(300,10)]`,
schedule 120. -/
def rowB : RawRow :=
  ⟨some "ON", some "W1", some "WIND", [[50, -5], [150, 0], [300, 10]], some 120⟩

/-- The same offer curve as (cumulativeMW, price) pairs. -/
def ptsB : List (ℚ × ℚ) := [(50, -5), (150, 0), (300, 10)]

theorem renewable_truncation_bound_witness :
    |sumMw (recordSegments rowB) - min 120 (((ptsB.map Prod.fst).getLast?).getD 0)| ≤
      1 / 10 :=
  renewable_truncation_bound rowB ptsB 120 rfl (Or.inl rfl) (by decide) rfl
    (by norm_num)
    (List.Chain.cons (by norm_num)
      (List.Chain.cons (by norm_num)
        (List.Chain.cons (by norm_num) List.Chain.nil)))

theorem shortfall_returns_default_witness :
    (marketStats shortfallCurve 250).clearingPrice = 50 ∧
    (marketStats shortfallCurve 250).marginalResourceType = "TBD" :=
  shortfall_returns_default shortfallCurve 250
    (by
      intro p hp
      rw [shortfallCurve, List.mem_singleton] at hp
      subst hp
      norm_num)
    (by norm_num [sumMw, shortfallCurve])

/-- A two-segment merit-order-sorted curve for the stats witnesses. -/
def statCurve : List OfferCurvePoint :=
  [⟨100, 20, "G1", "GAS_CC"⟩, ⟨50, 35, "G2", "COAL"⟩]

lemma statCurve_sorted : statCurve.Pairwise (fun a b => meritLe a b = true) := by
  norm_num [statCurve, List.pairwise_cons, meritLe]

lemma statCurve_len : 1 < statCurve.length := by norm_num [statCurve]

lemma statCurve_break : (120 : ℚ) ≤ sumMw (statCurve.take (1 + 1)) := by
  norm_num [statCurve, sumMw]

lemma statCurve_first : ∀ j, j < 1 → sumMw (statCurve.take (j + 1)) < (120 : ℚ) := by
  intro j hj
  have hj0 : j = 0 := by omega
  subst hj0
  norm_num [statCurve, sumMw]

theorem clearing_price_marginal_segment_witness :
    (marketStats statCurve 120).clearingPrice = (statCurve.get ⟨1, statCurve_len⟩).price ∧
    (marketStats statCurve 120).marginalResourceType =
      (statCurve.get ⟨1, statCurve_len⟩).resource_type :=
  clearing_price_marginal_segment statCurve 120 1 statCurve_sorted (by norm_num)
    statCurve_len statCurve_break statCurve_first (by decide)

theorem avg_cost_dispatch_weighted_witness :
    avgGenCost statCurve 120 =
      (weightedSum (statCurve.take 1) +
          (statCurve.get ⟨1, statCurve_len⟩).price * (120 - sumMw (statCurve.take 1))) /
        (sumMw (statCurve.take 1) + (120 - sumMw (statCurve.take 1))) :=
  avg_cost_dispatch_weighted statCurve 120 1 statCurve_sorted (by norm_num)
    statCurve_len statCurve_break statCurve_first

/-- One active NUCLEAR generator (exact `colorMap` key). -/
def rowsNuc : List RawRow :=
  [⟨some "ON", some "N1", some "NUCLEAR", [[100, 10]], some 90⟩]

lemma summary_rowsNuc :
    resourceTypeSummary rowsNuc = [("NUCLEAR", ⟨100, 10, "#8B5CF6"⟩)] := by
  have hON : ("ON" = "OUT" ∨ "ON" = "OFF" ∨ "ON" = "OFFNS") = False :=
    eq_false (by decide)
  have hNu : ("NUCLEAR" = "WIND" ∨ "NUCLEAR" = "PVGR") = False := eq_false (by decide)
  have hN1 : ("N1" = "") = False := eq_false (by decide)
  have hNt : ("NUCLEAR" = "") = False := eq_false (by decide)
  norm_num [resourceTypeSummary, processedData, sortedSupplyCurve, supplyData,
    expandedData, buildState, initState, stepRow, processPoints, isExcludedStatus,
    isRenewableToTruncate, excludedStatuses, jsOptStrOr, jsStrOr, assignCumulative,
    updateSummary, addCapacity, summaryColor, colorMap, List.lookup, rowsNuc,
    hON, hNu, hN1, hNt]
  all_goals decide

/-- One processed point for the python-bridge summary, with a resource
type that only the substring cascade maps (contains `WIND`, no exact
`bridgeColorMap` key). -/
def bridgeProcessed : List ProcessedPoint :=
  [⟨100, 10, "W1", "WINDX", 0, 100⟩]

lemma bridge_summary_eval :
    bridgeResourceTypeSummary bridgeProcessed = [("WINDX", ⟨100, 10, "#22C55E"⟩)] := by
  have hWX : ("WINDX" = "") = False := eq_false (by decide)
  have hcol : bridgeColorForResourceType "WINDX" = "#22C55E" := by decide
  norm_num [bridgeResourceTypeSummary, bridgeUpdateSummary, addCapacity,
    jsStrOr, bridgeProcessed, List.lookup, hWX, hcol]

theorem summary_color_exact_or_default_witness :
    (⟨100, 10, "#8B5CF6"⟩ : TypeSummary).color = summaryColor "NUCLEAR" ∧
    (⟨100, 10, "#22C55E"⟩ : TypeSummary).color = bridgeColorForResourceType "WINDX" :=
  ⟨(summary_color_exact_or_default rowsNuc bridgeProcessed).1 "NUCLEAR"
      ⟨100, 10, "#8B5CF6"⟩
      (by
        rw [summary_rowsNuc]
        exact List.mem_singleton.mpr rfl),
   (summary_color_exact_or_default rowsNuc bridgeProcessed).2 "WINDX"
      ⟨100, 10, "#22C55E"⟩
      (by
        rw [bridge_summary_eval]
        exact List.mem_singleton.mpr rfl)⟩

/-- An active generator with missing name and type fields. -/
def rowU : RawRow := ⟨some "ON", none, none, [[100, 20]], some 50⟩

lemma recordSegments_rowU :
    recordSegments rowU = [⟨100, 20, "UNKNOWN_GENERATOR", "UNKNOWN_TYPE"⟩] := by
  have hON : ("ON" = "OUT" ∨ "ON" = "OFF" ∨ "ON" = "OFFNS") = False :=
    eq_false (by decide)
  norm_num [recordSegments, rowU, processPoints, isExcludedStatus,
    isRenewableToTruncate, excludedStatuses, jsOptStrOr, jsStrOr, hON]

theorem missing_identity_placeholders_witness :
    recordSegments { rowU with resource_name := none } =
      recordSegments { rowU with resource_name := some "UNKNOWN_GENERATOR" } ∧
    ((⟨100, 20, "UNKNOWN_GENERATOR", "UNKNOWN_TYPE"⟩ : OfferCurvePoint).resource_name =
        jsOptStrOr rowU.resource_name "UNKNOWN_GENERATOR" ∧
      (⟨100, 20, "UNKNOWN_GENERATOR", "UNKNOWN_TYPE"⟩ : OfferCurvePoint).resource_type =
        jsOptStrOr rowU.resource_type "UNKNOWN_TYPE") :=
  ⟨(missing_identity_placeholders rowU).1,
   (missing_identity_placeholders rowU).2.2 _
     (by
       rw [recordSegments_rowU]
       exact List.mem_singleton.mpr rfl)⟩

/-- Scenario B check: the WIND generator's emitted segments are exactly
`[(50,-5),(70,0)]` — 120 MW in total, the rest of the curve dropped. -/
lemma processPoints_scenarioB :
    processPoints true 120 "W" "WIND" [[50, -5], [150, 0], [300, 10]] 0 0 =
      [⟨50, -5, "W", "WIND"⟩, ⟨70, 0, "W", "WIND"⟩] := by
  norm_num [processPoints]

/-- Scenario C check: a generator with status OUT emits no segments. -/
lemma recordSegments_scenarioC :
    recordSegments ⟨some "OUT", some "G", some "NUC", [[100, 20]], some 50⟩ = [] := by
  norm_num [recordSegments, isExcludedStatus, excludedStatuses]
